import Mathlib

/-!
Verification of the entry integrity and query subsystem of the
capx-assignment repository (Next.js API routes `pages/api/entries.ts`,
`pages/api/topics.ts` (revision embedded in `pages/api/login.ts`), the
platform-username checker in `pages/api/auth-status.ts`, and the client
submission flow `EntryForm.handleSubmit`).

The document store (Firestore) is modelled as explicit lists of topic and
entry documents; each API handler becomes a pure function from the request
data and the current store to a status code, a response value, and the
post-state.  A Firestore batch commit is a single state transition, which
is exactly the atomicity the store guarantees for `batch.commit()`.

Two validations delegated to external libraries (the `isAddress` of viem,
whose mixed-case branch needs keccak-256 checksumming, and the `.email()`
format regex of zod) are taken as function parameters of the embedding;
every other validation rule is translated directly from the repository
source.
-/

namespace CapX

/-- Topic document as stored in the `topics` collection, with the
store-assigned document id (`Topic` interface in the API source). -/
structure TopicDoc where
  id : String
  name : String
  description : String
  isActive : Bool
  createdAt : Nat
deriving DecidableEq, Repr

/-- Entry document as stored in the `entries` collection, with the
store-assigned document id.  `topicName` is the denormalized copy written
at submission time; `discordUsername` is the optional field (`none` when
the key is absent from the request body). -/
structure EntryDoc where
  id : String
  topicId : String
  topicName : String
  telegramUsername : String
  platformUsername : String
  walletAddress : String
  discordUsername : Option String
  email : String
  createdAt : Nat
deriving DecidableEq, Repr

/-- The document store: the `topics` and `entries` collections. -/
structure Store where
  topics : List TopicDoc
  entries : List EntryDoc
deriving DecidableEq, Repr

/-- JS truthiness of an optional string value: `undefined` (absent) and
the empty string are falsy, any other string is truthy.  Used for
`if (topicId)`, `if (!id)` and similar guards in the handlers. -/
def strTruthy : Option String → Bool
  | none => false
  | some s => s != ""

/-- JS `parseInt(x) || d`: an absent or non-numeric parameter (`NaN`,
modelled as `none`) and the falsy value `0` both fall back to the
default; any other parsed integer is kept. -/
def jsOrInt : Option Int → Int → Int
  | none, d => d
  | some n, d => if n == 0 then d else n

/-- Total order on strings by their character sequences (the order
Firestore uses for document names).  ASCII code-point comparison. -/
def charsLe : List Char → List Char → Bool
  | [], _ => true
  | _ :: _, [] => false
  | a :: as, b :: bs => if a < b then true else if b < a then false else charsLe as bs

/-- String comparison used for document-id ordering. -/
def strLe (a b : String) : Bool := charsLe a.data b.data

/-- Insert an element into a list sorted by `le`. -/
def insertLe (le : α → α → Bool) (x : α) : List α → List α
  | [] => [x]
  | y :: ys => if le x y then x :: y :: ys else y :: insertLe le x ys

/-- Insertion sort by `le`. -/
def sortLe (le : α → α → Bool) : List α → List α
  | [] => []
  | x :: xs => insertLe le x (sortLe le xs)

/-- Order of documents returned by a Firestore query with no `orderBy`:
ascending by document id (the documented Firestore default, ordered by
document name). -/
def defaultOrder (l : List EntryDoc) : List EntryDoc :=
  sortLe (fun a b => strLe a.id b.id) l

/-- Comparator realising `orderBy("createdAt", "desc")` pushed to the
store: newest first; the tie-break between equal timestamps is left to
the store, modelled here as document id ascending. -/
def createdAtDescLe (a b : EntryDoc) : Bool :=
  if b.createdAt < a.createdAt then true
  else if a.createdAt == b.createdAt then strLe a.id b.id
  else false

/-- Documents returned by the store for an ordered
`orderBy createdAt desc` query over `l`. -/
def orderByCreatedAtDesc (l : List EntryDoc) : List EntryDoc :=
  sortLe createdAtDescLe l

/-- ASCII lowercasing, JS `String.prototype.toLowerCase` on the ASCII
data appearing in this subsystem. -/
def jsToLower (s : String) : String := ⟨s.data.map Char.toLower⟩

/-- JS `hay.includes(needle)`: substring containment. -/
def strIncludes (hay needle : String) : Bool :=
  hay.data.tails.any (fun t => needle.data.isPrefixOf t)

/-- The case-insensitive topic-name match of the in-memory filter path:
`docTopicName.toLowerCase().includes(topicName.toLowerCase())`. -/
def topicNameMatches (docTopicName queryTopicName : String) : Bool :=
  strIncludes (jsToLower docTopicName) (jsToLower queryTopicName)

/-- `PaginationParams` of `pages/api/entries.ts`. -/
structure PaginationParams where
  page : Int
  limit : Int
  offset : Int
deriving DecidableEq, Repr

/-- `getPaginationParams` of `pages/api/entries.ts`:
`page = Math.max(1, parseInt(query.page) || 1)`,
`limit = Math.min(100, Math.max(1, parseInt(query.limit) || 10))`,
`offset = (page - 1) * limit`. -/
def getPaginationParams (qpage qlimit : Option Int) : PaginationParams :=
  let page := max 1 (jsOrInt qpage 1)
  let limit := min 100 (max 1 (jsOrInt qlimit 10))
  { page := page, limit := limit, offset := (page - 1) * limit }

/-- `Math.ceil(total / limit)` for a nonnegative `total` and positive
`limit`, as computed for the `totalPages` field. -/
def mathCeilDiv (total limit : Nat) : Nat := (total + limit - 1) / limit

/-- Query string of `GET /entries` (each parameter absent or a raw
value; `page`/`limit` carry the `parseInt` result, `none` for `NaN`). -/
structure EntriesQuery where
  page : Option Int
  limit : Option Int
  topicId : Option String
  topicName : Option String
deriving DecidableEq, Repr

/-- `PaginationResponse` of `pages/api/entries.ts`. -/
structure PaginationResponse where
  total : Nat
  page : Int
  limit : Int
  totalPages : Nat
deriving DecidableEq, Repr

/-- `EntryResponse` of `pages/api/entries.ts`. -/
structure EntryResponse where
  entries : List EntryDoc
  pagination : PaginationResponse
deriving DecidableEq, Repr

/-- `handleGetEntries` of `pages/api/entries.ts`: status code and body.
The `topicId` filter is pushed to the store; a truthy `topicName` with a
falsy `topicId` takes the in-memory path, which fetches the collection
(store default order), filters by case-insensitive substring match and
slices `[offset, offset + limit)` of the filtered list; otherwise the
store computes the count and the `createdAt`-descending page. -/
def handleGetEntries (st : Store) (q : EntriesQuery) : Nat × EntryResponse :=
  let p := getPaginationParams q.page q.limit
  let base :=
    if strTruthy q.topicId then
      st.entries.filter (fun e => e.topicId == q.topicId.getD "")
    else st.entries
  if strTruthy q.topicName && !strTruthy q.topicId then
    let filteredDocs :=
      (defaultOrder base).filter
        (fun e => topicNameMatches e.topicName (q.topicName.getD ""))
    let total := filteredDocs.length
    let entries := (filteredDocs.drop p.offset.toNat).take p.limit.toNat
    (200, ⟨entries, ⟨total, p.page, p.limit, mathCeilDiv total p.limit.toNat⟩⟩)
  else
    let total := base.length
    let entries := ((orderByCreatedAtDesc base).drop p.offset.toNat).take p.limit.toNat
    (200, ⟨entries, ⟨total, p.page, p.limit, mathCeilDiv total p.limit.toNat⟩⟩)

/-- Validations the repository delegates to external libraries: the viem
`isAddress` (regex plus EIP-55 keccak checksum for mixed-case input) and
the zod `.email()` format regex.  They are parameters of the embedding;
all other rules are translated from the source. -/
structure LibFns where
  isAddress : String → Bool
  emailFormat : String → Bool

/-- `[a-zA-Z0-9_]` character class (telegram / discord username regex). -/
def isWordChar (c : Char) : Bool := c.isAlpha || c.isDigit || c == '_'

/-- Request body of `POST /entries` (candidate entry fields, no id and
no timestamp; `discordUsername` is `none` when the key is absent). -/
structure EntryBody where
  topicId : String
  topicName : String
  telegramUsername : String
  platformUsername : String
  walletAddress : String
  discordUsername : Option String
  email : String
deriving DecidableEq, Repr

/-- `EntrySchema.parse` of `pages/api/entries.ts` as a boolean check:
`topicId` nonempty; `topicName` any string; `telegramUsername` nonempty,
at most 32 chars, `^[a-zA-Z0-9_]+$`; `platformUsername` 1..50 chars;
`walletAddress` nonempty and `isAddress`; `discordUsername` absent,
empty, or at most 32 chars of `^[a-zA-Z0-9_]+$`; `email` in zod email
format and at most 254 chars. -/
def entrySchemaOk (lib : LibFns) (b : EntryBody) : Bool :=
  (1 ≤ b.topicId.length) &&
  (1 ≤ b.telegramUsername.length && b.telegramUsername.length ≤ 32 &&
    b.telegramUsername.data.all isWordChar) &&
  (1 ≤ b.platformUsername.length && b.platformUsername.length ≤ 50) &&
  (1 ≤ b.walletAddress.length && lib.isAddress b.walletAddress) &&
  (match b.discordUsername with
   | none => true
   | some s => if s == "" then true else s.length ≤ 32 && s.data.all isWordChar) &&
  (lib.emailFormat b.email && b.email.length ≤ 254)

/-- Response body of `POST /entries`. -/
inductive PostOutcome where
  /-- 400, `Validation failed` with zod error details. -/
  | invalid : PostOutcome
  /-- 400, uniqueness conflict with the given error message. -/
  | conflict (msg : String) : PostOutcome
  /-- 201, the stored entry echoed back with its generated id. -/
  | created (e : EntryDoc) : PostOutcome
deriving DecidableEq, Repr

/-- The stored document built by `handlePostEntry` on success:
`{ ...data, createdAt: Date.now() }` plus the store-assigned id. -/
def mkEntry (newId : String) (b : EntryBody) (now : Nat) : EntryDoc :=
  ⟨newId, b.topicId, b.topicName, b.telegramUsername, b.platformUsername,
    b.walletAddress, b.discordUsername, b.email, now⟩

/-- `handlePostEntry` of `pages/api/entries.ts`: parse the body against
`EntrySchema`; fetch every entry sharing the `topicId` of the candidate; compute
the wallet, email and (telegram, platform)-pair duplicate flags; reject
in that order; otherwise append the new document.  `now` is `Date.now()`
and `newId` the id the store assigns. -/
def handlePostEntry (lib : LibFns) (now : Nat) (newId : String)
    (st : Store) (b : EntryBody) : Nat × PostOutcome × Store :=
  if !entrySchemaOk lib b then (400, .invalid, st)
  else
    let duplicates := st.entries.filter (fun e => e.topicId == b.topicId)
    let duplicateWallet := duplicates.any (fun e => e.walletAddress == b.walletAddress)
    let duplicateEmail := duplicates.any (fun e => e.email == b.email)
    let duplicateUser := duplicates.any (fun e =>
      e.telegramUsername == b.telegramUsername &&
      e.platformUsername == b.platformUsername)
    if duplicateWallet then
      (400, .conflict "This wallet address has already been used for this topic", st)
    else if duplicateEmail then
      (400, .conflict "This email address has already been used for this topic", st)
    else if duplicateUser then
      (400, .conflict "You have already submitted an entry for this topic", st)
    else
      let e := mkEntry newId b now
      (201, .created e, ⟨st.topics, st.entries ++ [e]⟩)

/-- `handleDeleteTopic` of the topics route: unauthorized callers get
401; a falsy `id` in the body gets 400; otherwise one Firestore batch
deletes every entry whose `topicId` equals `id` together with the topic
document `id`, and `batch.commit()` lands the whole batch as one atomic
state transition (200). -/
def handleDeleteTopic (tokenOk : Bool) (bodyId : Option String)
    (st : Store) : Nat × Store :=
  if !tokenOk then (401, st)
  else if !strTruthy bodyId then (400, st)
  else
    let id := bodyId.getD ""
    (200, ⟨st.topics.filter (fun t => !(t.id == id)),
            st.entries.filter (fun e => !(e.topicId == id))⟩)

/-- Firestore `update({ isActive })` on `topics.doc(id)`: replaces the
`isActive` field of the (unique) document named `id` and nothing else;
throws NOT_FOUND (`none`) when no such document exists. -/
def updateIsActive (id : String) (b : Bool) : List TopicDoc → Option (List TopicDoc)
  | [] => none
  | t :: ts =>
    if t.id == id then some ({ t with isActive := b } :: ts)
    else (updateIsActive id b ts).map (t :: ·)

/-- `handleUpdateTopic` of the topics route: unauthorized callers get
401; a body failing `UpdateTopicSchema` (empty `id`) gets 400; a missing
document makes the store throw, caught as 500 with the state unchanged;
otherwise the flag is updated and 200 returned. -/
def handleUpdateTopic (tokenOk : Bool) (bodyId : String) (bodyIsActive : Bool)
    (st : Store) : Nat × Store :=
  if !tokenOk then (401, st)
  else if bodyId.length < 1 then (400, st)
  else
    match updateIsActive bodyId bodyIsActive st.topics with
    | some ts => (200, ⟨ts, st.entries⟩)
    | none => (500, st)

/-- `validatePlatformUsername` of the platform-username checker endpoint
(`pages/api/validate-platform-username.ts`): no character outside
`[a-zA-Z0-9_.]`, length within 3..20, and not starting with a digit. -/
def validatePlatformUsername (username : String) : Bool :=
  let hasSpecialChars :=
    username.data.any (fun c => !(c.isAlpha || c.isDigit || c == '_' || c == '.'))
  let isInvalidLength := username.length < 3 || username.length > 20
  let startsWithNumber :=
    match username.data with
    | [] => false
    | c :: _ => c.isDigit
  !hasSpecialChars && !isInvalidLength && !startsWithNumber

/-- Outcome of the client `fetch` of the checker endpoint:
an HTTP response carrying `isValid`, a non-OK HTTP response, or a
network-level failure (the `fetch` promise rejects). -/
inductive CheckerResp where
  | ok (isValid : Bool) : CheckerResp
  | httpErr : CheckerResp
  | netFail : CheckerResp
deriving DecidableEq, Repr

/-- What the user sees after the submit flow. -/
inductive SubmitOutcome where
  /-- `setSubmitError(msg)` was called and no entry was posted or the
  post failed; the paired store is the (unchanged or updated) state. -/
  | submitError (msg : String) (st : Store) : SubmitOutcome
  /-- success toast; the paired store contains the new entry. -/
  | success (st : Store) : SubmitOutcome
deriving DecidableEq, Repr

/-- `handleSubmit` of `EntryForm`: first `fetch` the checker; a network
failure is caught as `An unexpected error occurred`; a non-OK response
or `isValid: false` sets the invalid-platform-username message and
returns without posting; only a positive verdict posts the entry to
`POST /entries`, surfacing `data.error` on a non-201 response. -/
def handleSubmit (checker : CheckerResp) (lib : LibFns) (now : Nat)
    (newId : String) (st : Store) (b : EntryBody) : SubmitOutcome :=
  match checker with
  | .netFail => .submitError "An unexpected error occurred" st
  | .httpErr =>
    .submitError "Invalid platform username. Please check the format and try again." st
  | .ok isValid =>
    if !isValid then
      .submitError "Invalid platform username. Please check the format and try again." st
    else
      let r := handlePostEntry lib now newId st b
      match r.2.1 with
      | .created _ => .success r.2.2
      | .invalid => .submitError "Validation failed" r.2.2
      | .conflict m => .submitError m r.2.2

/-! ### Basic lemmas about the store-order model -/

/-- Inserting into a sorted list permutes consing. -/
theorem insertLe_perm (le : α → α → Bool) (x : α) :
    ∀ l : List α, (insertLe le x l).Perm (x :: l)
  | [] => List.Perm.refl _
  | y :: ys => by
    simp only [insertLe]
    split
    · exact List.Perm.refl _
    · exact (List.Perm.cons y (insertLe_perm le x ys)).trans (List.Perm.swap x y ys)

/-- Sorting permutes the list. -/
theorem sortLe_perm (le : α → α → Bool) :
    ∀ l : List α, (sortLe le l).Perm l
  | [] => List.Perm.refl _
  | x :: xs =>
    (insertLe_perm le x (sortLe le xs)).trans (List.Perm.cons x (sortLe_perm le xs))

theorem mem_sortLe {le : α → α → Bool} {x : α} {l : List α} :
    x ∈ sortLe le l ↔ x ∈ l :=
  (sortLe_perm le l).mem_iff

theorem length_sortLe (le : α → α → Bool) (l : List α) :
    (sortLe le l).length = l.length :=
  (sortLe_perm le l).length_eq

theorem length_filter_sortLe (le : α → α → Bool) (p : α → Bool) (l : List α) :
    ((sortLe le l).filter p).length = (l.filter p).length :=
  ((sortLe_perm le l).filter p).length_eq

/-! ### C1 — cascading topic deletion is all-or-nothing -/

/-- **C1**: after `DELETE /topics` with a topic id, either the request
succeeds (200) and the post-state contains exactly the topics whose id
differs from the given id and exactly the entries whose `topicId`
differs from it — the topic and all of its entries are gone together,
everything else untouched — or the request fails and the store is
exactly unchanged.  No partial state is reachable: the batch commit is
a single transition. -/
theorem deleteTopic_cascade_atomic (tokenOk : Bool) (bodyId : Option String) (st : Store) :
    ((handleDeleteTopic tokenOk bodyId st).1 = 200 →
      (∀ t, t ∈ (handleDeleteTopic tokenOk bodyId st).2.topics ↔
        t ∈ st.topics ∧ t.id ≠ bodyId.getD "") ∧
      (∀ e, e ∈ (handleDeleteTopic tokenOk bodyId st).2.entries ↔
        e ∈ st.entries ∧ e.topicId ≠ bodyId.getD "")) ∧
    ((handleDeleteTopic tokenOk bodyId st).1 ≠ 200 →
      (handleDeleteTopic tokenOk bodyId st).2 = st) := by
  cases tokenOk with
  | false => simp [handleDeleteTopic]
  | true =>
    by_cases hb : strTruthy bodyId
    · constructor
      · intro _
        constructor
        · intro t
          simp [handleDeleteTopic, hb, List.mem_filter]
        · intro e
          simp [handleDeleteTopic, hb, List.mem_filter]
      · intro h
        exact absurd (by simp [handleDeleteTopic, hb]) h
    · simp [handleDeleteTopic, hb]

def topicA : TopicDoc := ⟨"t1", "Alpha", "first topic", true, 10⟩

def topicB : TopicDoc := ⟨"t2", "Beta", "second topic", true, 20⟩

def walletA : String := "0xaaaaaaaaaaaaaaaaaaaaaaaaaaaaaaaaaaaaaaaa"

def walletB : String := "0xbbbbbbbbbbbbbbbbbbbbbbbbbbbbbbbbbbbbbbbb"

def walletC : String := "0xcccccccccccccccccccccccccccccccccccccccc"

def entryA1 : EntryDoc :=
  ⟨"e1", "t1", "Alpha", "tg_one", "platone", walletA, none, "a@x.com", 100⟩

def entryB1 : EntryDoc :=
  ⟨"e2", "t2", "Beta", "tg_two", "plattwo", walletB, none, "b@x.com", 200⟩

/-- Concrete instantiation of the viem `isAddress` used by the witnesses:
the all-lowercase-hex branch (`0x` plus 40 lowercase hex digits), the
one branch of the library that involves no keccak checksum. -/
def demoIsAddress (s : String) : Bool :=
  s.length == 42 && s.data.take 2 == ['0', 'x'] &&
  (s.data.drop 2).all (fun c => c.isDigit || ('a' ≤ c && c ≤ 'f'))

/-- Concrete instantiation of the zod email format used by the witnesses:
a nonempty local part, exactly one `@`, and a dotted domain that does
not start or end with a dot. -/
def demoEmailFormat (s : String) : Bool :=
  let cs := s.data
  let localPart := cs.takeWhile (fun c => c != '@')
  match cs.dropWhile (fun c => c != '@') with
  | '@' :: domain =>
    localPart != [] && domain != [] && domain.all (fun c => c != '@') &&
    domain.any (fun c => c == '.') &&
    (match domain with
     | d :: _ => d != '.'
     | [] => false) &&
    (match domain.getLast? with
     | some d => d != '.'
     | none => false)
  | _ => false

/-- The external-library parameters instantiated for witnesses. -/
def demoLib : LibFns := ⟨demoIsAddress, demoEmailFormat⟩

def storeC1 : Store := ⟨[topicA, topicB], [entryA1, entryB1]⟩

/-- Witness for C1 at a concrete store: deleting topic `t1` succeeds,
its entry is gone, and the unrelated topic survives. -/
theorem deleteTopic_cascade_atomic_witness :
    (handleDeleteTopic true (some "t1") storeC1).1 = 200 ∧
    entryA1 ∉ (handleDeleteTopic true (some "t1") storeC1).2.entries ∧
    topicB ∈ (handleDeleteTopic true (some "t1") storeC1).2.topics := by
  have h := deleteTopic_cascade_atomic true (some "t1") storeC1
  refine ⟨by decide, ?_, ?_⟩
  · intro hmem
    exact (((h.1 (by decide)).2 entryA1).mp hmem).2 (by decide)
  · exact ((h.1 (by decide)).1 topicB).mpr ⟨by decide, by decide⟩

/-! ### C9 — PATCH /topics updates the flag and nothing else -/

/-- A successful `update({ isActive })` splits the collection at the
first document named `id`, replaces only its `isActive` field, and
keeps every other document in place. -/
theorem updateIsActive_eq_some {id : String} {b : Bool} :
    ∀ {l l' : List TopicDoc}, updateIsActive id b l = some l' →
      ∃ l₁ t l₂, l = l₁ ++ t :: l₂ ∧ t.id = id ∧ (∀ u ∈ l₁, u.id ≠ id) ∧
        l' = l₁ ++ { t with isActive := b } :: l₂ := by
  intro l
  induction l with
  | nil => intro l' h; exact absurd h (by simp [updateIsActive])
  | cons t ts ih =>
    intro l' h
    simp only [updateIsActive] at h
    by_cases ht : t.id = id
    · rw [if_pos (by simp [ht])] at h
      refine ⟨[], t, ts, by simp, ht, by simp, ?_⟩
      simpa using (Option.some.inj h).symm
    · rw [if_neg (by simp [ht])] at h
      cases hts : updateIsActive id b ts with
      | none => rw [hts] at h; simp at h
      | some ts' =>
        rw [hts] at h
        simp only [Option.map_some'] at h
        obtain ⟨l₁, u, l₂, hsplit, hid, hothers, hres⟩ := ih hts
        refine ⟨t :: l₁, u, l₂, by simp [hsplit], hid, ?_, ?_⟩
        · intro v hv
          rcases List.mem_cons.mp hv with rfl | hv'
          · exact ht
          · exact hothers v hv'
        · cases Option.some.inj h
          simp [hres]

/-- **C9**: a successful `PATCH /topics` with `{id, isActive}` leaves
the entries collection untouched and rewrites the topics collection by
replacing exactly the addressed document with one whose `isActive` is
the supplied boolean and whose `name`, `description` and `createdAt`
are unchanged; every topic before and after it in the collection is
preserved as-is. -/
theorem updateTopic_flag_only (tokenOk bodyIsActive : Bool) (bodyId : String)
    (st st' : Store)
    (hrun : handleUpdateTopic tokenOk bodyId bodyIsActive st = (200, st')) :
    st'.entries = st.entries ∧
    ∃ l₁ t u l₂, st.topics = l₁ ++ t :: l₂ ∧ st'.topics = l₁ ++ u :: l₂ ∧
      t.id = bodyId ∧ u.id = t.id ∧ u.isActive = bodyIsActive ∧
      u.name = t.name ∧ u.description = t.description ∧ u.createdAt = t.createdAt := by
  cases tokenOk with
  | false => simp [handleUpdateTopic] at hrun
  | true =>
    by_cases hlen : bodyId.length < 1
    · simp [handleUpdateTopic, hlen] at hrun
    · cases hup : updateIsActive bodyId bodyIsActive st.topics with
      | none => simp [handleUpdateTopic, hlen, hup] at hrun
      | some ts =>
        simp only [handleUpdateTopic, hlen, if_false, Bool.not_true, hup] at hrun
        obtain ⟨l₁, t, l₂, hsplit, hid, _, hres⟩ := updateIsActive_eq_some hup
        have hst' : st' = ⟨ts, st.entries⟩ := by
          cases hrun.symm
          rfl
        subst hst'
        exact ⟨rfl, l₁, t, { t with isActive := bodyIsActive }, l₂,
          hsplit, by simpa using hres, hid, rfl, rfl, rfl, rfl, rfl⟩

/-- Witness for C9 at a concrete store: toggling `t2` to inactive keeps
the entries list and replaces only the addressed topic. -/
theorem updateTopic_flag_only_witness :
    (handleUpdateTopic true "t2" false storeC1).2.entries = storeC1.entries := by
  have hrun : handleUpdateTopic true "t2" false storeC1 =
      (200, (handleUpdateTopic true "t2" false storeC1).2) := by decide
  exact (updateTopic_flag_only true false "t2" storeC1 _ hrun).1

/-! ### C4 — pagination parameter normalisation and totalPages -/

theorem getPaginationParams_page_ge_one (qp ql : Option Int) :
    1 ≤ (getPaginationParams qp ql).page :=
  le_max_left 1 _

theorem getPaginationParams_limit_bounds (qp ql : Option Int) :
    1 ≤ (getPaginationParams qp ql).limit ∧ (getPaginationParams qp ql).limit ≤ 100 :=
  ⟨le_min (by norm_num) (le_max_left 1 _), min_le_left _ _⟩

theorem getPaginationParams_offset_nonneg (qp ql : Option Int) :
    0 ≤ (getPaginationParams qp ql).offset := by
  have hp := getPaginationParams_page_ge_one qp ql
  have hl := (getPaginationParams_limit_bounds qp ql).1
  simp only [getPaginationParams] at hp hl ⊢
  nlinarith

/-- `Math.ceil(total / limit)` is the exact ceiling for positive
`total` and `limit`: the pages cover the set, and one page fewer
would not. -/
theorem mathCeilDiv_spec (total n : Nat) (hn : 0 < n) (ht : 0 < total) :
    total ≤ mathCeilDiv total n * n ∧ (mathCeilDiv total n - 1) * n < total := by
  obtain ⟨t, rfl⟩ : ∃ t, total = t + 1 := ⟨total - 1, by omega⟩
  have h1 : mathCeilDiv (t + 1) n = t / n + 1 := by
    unfold mathCeilDiv
    have h2 : t + 1 + n - 1 = t + n := by omega
    rw [h2, Nat.add_div_right _ hn]
  have hd := Nat.div_add_mod t n
  have hm := Nat.mod_lt t hn
  constructor
  · rw [h1, Nat.add_mul, Nat.one_mul]
    nlinarith
  · rw [h1]
    simp only [Nat.add_sub_cancel]
    exact Nat.lt_succ_of_le (Nat.div_mul_le_self t n)

/-- `mathCeilDiv 0 n = 0` for positive `n`. -/
theorem mathCeilDiv_zero (n : Nat) (hn : 0 < n) : mathCeilDiv 0 n = 0 := by
  unfold mathCeilDiv
  exact Nat.div_eq_of_lt (by omega)

/-- `handleGetEntries` when the `topicId` filter is truthy: the store
computes the count and the ordered page over the filtered entries. -/
theorem handleGetEntries_topicId (st : Store) (q : EntriesQuery)
    (h : strTruthy q.topicId = true) :
    handleGetEntries st q =
      (200, ⟨(((orderByCreatedAtDesc (st.entries.filter
                (fun e => e.topicId == q.topicId.getD ""))).drop
              (getPaginationParams q.page q.limit).offset.toNat).take
              (getPaginationParams q.page q.limit).limit.toNat),
        ⟨(st.entries.filter (fun e => e.topicId == q.topicId.getD "")).length,
          (getPaginationParams q.page q.limit).page,
          (getPaginationParams q.page q.limit).limit,
          mathCeilDiv (st.entries.filter (fun e => e.topicId == q.topicId.getD "")).length
            (getPaginationParams q.page q.limit).limit.toNat⟩⟩) := by
  unfold handleGetEntries
  simp [h]

/-- `handleGetEntries` on the in-memory path (truthy `topicName` and
falsy `topicId`): the whole collection is fetched in the store default
order, filtered client-side, counted and sliced. -/
theorem handleGetEntries_inMemory (st : Store) (q : EntriesQuery)
    (h1 : strTruthy q.topicName = true) (h2 : strTruthy q.topicId = false) :
    handleGetEntries st q =
      (200, ⟨((((defaultOrder st.entries).filter
                (fun e => topicNameMatches e.topicName (q.topicName.getD ""))).drop
              (getPaginationParams q.page q.limit).offset.toNat).take
              (getPaginationParams q.page q.limit).limit.toNat),
        ⟨((defaultOrder st.entries).filter
            (fun e => topicNameMatches e.topicName (q.topicName.getD ""))).length,
          (getPaginationParams q.page q.limit).page,
          (getPaginationParams q.page q.limit).limit,
          mathCeilDiv ((defaultOrder st.entries).filter
              (fun e => topicNameMatches e.topicName (q.topicName.getD ""))).length
            (getPaginationParams q.page q.limit).limit.toNat⟩⟩) := by
  unfold handleGetEntries
  simp [h1, h2]

/-- `handleGetEntries` with neither filter truthy: the store computes
the count and the ordered page over the whole collection. -/
theorem handleGetEntries_noFilter (st : Store) (q : EntriesQuery)
    (h1 : strTruthy q.topicName = false) (h2 : strTruthy q.topicId = false) :
    handleGetEntries st q =
      (200, ⟨(((orderByCreatedAtDesc st.entries).drop
              (getPaginationParams q.page q.limit).offset.toNat).take
              (getPaginationParams q.page q.limit).limit.toNat),
        ⟨st.entries.length,
          (getPaginationParams q.page q.limit).page,
          (getPaginationParams q.page q.limit).limit,
          mathCeilDiv st.entries.length
            (getPaginationParams q.page q.limit).limit.toNat⟩⟩) := by
  unfold handleGetEntries
  simp [h1, h2]

/-- Every `GET /entries` response is a status 200 whose entries are the
`[offset, offset + limit)` slice of some list `l` with `total` reported
as the length of `l`. -/
theorem handleGetEntries_shape (st : Store) (q : EntriesQuery) :
    ∃ l : List EntryDoc,
      handleGetEntries st q =
        (200, ⟨((l.drop (getPaginationParams q.page q.limit).offset.toNat).take
                  (getPaginationParams q.page q.limit).limit.toNat),
          ⟨l.length, (getPaginationParams q.page q.limit).page,
            (getPaginationParams q.page q.limit).limit,
            mathCeilDiv l.length (getPaginationParams q.page q.limit).limit.toNat⟩⟩) := by
  cases hid : strTruthy q.topicId with
  | false =>
    cases hnm : strTruthy q.topicName with
    | false =>
      refine ⟨orderByCreatedAtDesc st.entries, ?_⟩
      rw [handleGetEntries_noFilter st q hnm hid]
      simp [orderByCreatedAtDesc, length_sortLe]
    | true => exact ⟨_, handleGetEntries_inMemory st q hnm hid⟩
  | true =>
    refine ⟨orderByCreatedAtDesc (st.entries.filter
      (fun e => e.topicId == q.topicId.getD "")), ?_⟩
    rw [handleGetEntries_topicId st q hid]
    simp [orderByCreatedAtDesc, length_sortLe]

/-- **C4**: the requested page defaults to 1 and is floored to a
minimum of 1; the requested limit defaults to 10 and is clamped to
`[1, 100]`; `offset = (page - 1) * limit`; and for every listing the
reported `totalPages` is exactly `ceil(total / limit)` — zero when
`total = 0`, in which case the entries page is empty regardless of the
requested page. -/
theorem pagination_contract (qp ql : Option Int) (st : Store) (q : EntriesQuery) :
    1 ≤ (getPaginationParams qp ql).page ∧
    (qp = none → (getPaginationParams qp ql).page = 1) ∧
    (1 ≤ (getPaginationParams qp ql).limit ∧ (getPaginationParams qp ql).limit ≤ 100) ∧
    (ql = none → (getPaginationParams qp ql).limit = 10) ∧
    (getPaginationParams qp ql).offset =
      ((getPaginationParams qp ql).page - 1) * (getPaginationParams qp ql).limit ∧
    ((handleGetEntries st q).2.pagination.page = (getPaginationParams q.page q.limit).page ∧
     (handleGetEntries st q).2.pagination.limit = (getPaginationParams q.page q.limit).limit) ∧
    ((handleGetEntries st q).2.pagination.total = 0 →
      (handleGetEntries st q).2.pagination.totalPages = 0 ∧
      (handleGetEntries st q).2.entries = []) ∧
    (0 < (handleGetEntries st q).2.pagination.total →
      (handleGetEntries st q).2.pagination.total ≤
        (handleGetEntries st q).2.pagination.totalPages *
          (handleGetEntries st q).2.pagination.limit.toNat ∧
      ((handleGetEntries st q).2.pagination.totalPages - 1) *
          (handleGetEntries st q).2.pagination.limit.toNat <
        (handleGetEntries st q).2.pagination.total) := by
  have hlim := getPaginationParams_limit_bounds q.page q.limit
  have hlimNat : 0 < (getPaginationParams q.page q.limit).limit.toNat := by omega
  obtain ⟨l, hl⟩ := handleGetEntries_shape st q
  refine ⟨getPaginationParams_page_ge_one qp ql, ?_,
    getPaginationParams_limit_bounds qp ql, ?_, rfl, ?_, ?_, ?_⟩
  · intro h; subst h; simp [getPaginationParams, jsOrInt]
  · intro h; subst h; simp [getPaginationParams, jsOrInt]
  · rw [hl]; exact ⟨rfl, rfl⟩
  · intro h0
    rw [hl] at h0 ⊢
    simp only at h0 ⊢
    rw [List.length_eq_zero] at h0
    simp [h0, mathCeilDiv_zero _ hlimNat]
  · intro h0
    rw [hl] at h0 ⊢
    simp only at h0 ⊢
    exact mathCeilDiv_spec _ _ hlimNat h0

def storeEmpty : Store := ⟨[], []⟩

/-- Witness for C4: on an empty store with an out-of-range requested
page, `totalPages` is 0 and the page of entries is empty. -/
theorem pagination_contract_witness :
    (handleGetEntries storeEmpty ⟨some 7, some (-3), none, none⟩).2.pagination.totalPages = 0 ∧
    (handleGetEntries storeEmpty ⟨some 7, some (-3), none, none⟩).2.entries = [] := by
  exact (pagination_contract (some 7) (some (-3)) storeEmpty
    ⟨some 7, some (-3), none, none⟩).2.2.2.2.2.2.1 (by decide)

/-! ### C10 — an out-of-range page is an empty 200, not an error -/

/-- **C10**: whenever the computed offset reaches or passes the (true,
filtered) total, both delivery modes still answer 200 with an empty
entries list, while `total` keeps reporting the real count of matching
documents: the filtered count in `topicName` mode, the per-topic count
in `topicId` mode, and the collection size otherwise. -/
theorem out_of_range_page_is_empty_200 (st : Store) (q : EntriesQuery)
    (h : (handleGetEntries st q).2.pagination.total ≤
      (getPaginationParams q.page q.limit).offset.toNat) :
    (handleGetEntries st q).1 = 200 ∧
    (handleGetEntries st q).2.entries = [] ∧
    (strTruthy q.topicId = true →
      (handleGetEntries st q).2.pagination.total =
        st.entries.countP (fun e => e.topicId == q.topicId.getD "")) ∧
    (strTruthy q.topicId = false → strTruthy q.topicName = true →
      (handleGetEntries st q).2.pagination.total =
        st.entries.countP (fun e => topicNameMatches e.topicName (q.topicName.getD ""))) ∧
    (strTruthy q.topicId = false → strTruthy q.topicName = false →
      (handleGetEntries st q).2.pagination.total = st.entries.length) := by
  obtain ⟨l, hl⟩ := handleGetEntries_shape st q
  have hempty : (handleGetEntries st q).2.entries = [] := by
    rw [hl] at h ⊢
    simp only at h ⊢
    rw [List.drop_eq_nil_of_le h, List.take_nil]
  refine ⟨by rw [hl], hempty, ?_, ?_, ?_⟩
  · intro hid
    rw [handleGetEntries_topicId st q hid]
    simp [List.countP_eq_length_filter]
  · intro hid hnm
    rw [handleGetEntries_inMemory st q hnm hid]
    simp only
    rw [List.countP_eq_length_filter, defaultOrder, length_filter_sortLe]
  · intro hid hnm
    rw [handleGetEntries_noFilter st q hnm hid]

/-- Witness for C10: one matching entry, requested page 5: status 200,
empty page, total still 1. -/
theorem out_of_range_page_is_empty_200_witness :
    (handleGetEntries storeC1 ⟨some 5, none, some "t1", none⟩).1 = 200 ∧
    (handleGetEntries storeC1 ⟨some 5, none, some "t1", none⟩).2.entries = [] ∧
    (handleGetEntries storeC1 ⟨some 5, none, some "t1", none⟩).2.pagination.total = 1 := by
  have h := out_of_range_page_is_empty_200 storeC1 ⟨some 5, none, some "t1", none⟩ (by decide)
  exact ⟨h.1, h.2.1, by rw [h.2.2.1 (by decide)]; decide⟩

/-! ### C5 — topicName search filters in memory and slices the filtered list -/

/-- **C5**: with a truthy `topicName` filter and no `topicId`, the
handler fetches the whole entries collection, keeps exactly the entries
whose denormalized topic name contains the query case-insensitively,
reports `total` as the filtered count, and returns the
`[offset, offset + limit)` slice of the filtered list; zero matches
give `total = 0` and an empty page with status 200, never an error. -/
theorem topicName_filter_in_memory (st : Store) (q : EntriesQuery)
    (h1 : strTruthy q.topicName = true) (h2 : strTruthy q.topicId = false) :
    (handleGetEntries st q).1 = 200 ∧
    (handleGetEntries st q).2.pagination.total =
      st.entries.countP (fun e => topicNameMatches e.topicName (q.topicName.getD "")) ∧
    (handleGetEntries st q).2.entries =
      (((defaultOrder st.entries).filter
          (fun e => topicNameMatches e.topicName (q.topicName.getD ""))).drop
        (getPaginationParams q.page q.limit).offset.toNat).take
        (getPaginationParams q.page q.limit).limit.toNat ∧
    (∀ e ∈ (handleGetEntries st q).2.entries,
      e ∈ st.entries ∧ topicNameMatches e.topicName (q.topicName.getD "") = true) ∧
    (st.entries.countP (fun e => topicNameMatches e.topicName (q.topicName.getD "")) = 0 →
      (handleGetEntries st q).2.pagination.total = 0 ∧
      (handleGetEntries st q).2.entries = []) := by
  have heq := handleGetEntries_inMemory st q h1 h2
  have htot : (handleGetEntries st q).2.pagination.total =
      st.entries.countP (fun e => topicNameMatches e.topicName (q.topicName.getD "")) := by
    rw [heq]
    simp only
    rw [List.countP_eq_length_filter, defaultOrder, length_filter_sortLe]
  refine ⟨by rw [heq], htot, by rw [heq], ?_, ?_⟩
  · intro e he
    rw [heq] at he
    simp only at he
    have hf := List.mem_of_mem_drop (List.mem_of_mem_take he)
    have := List.mem_filter.mp hf
    exact ⟨mem_sortLe.mp this.1, this.2⟩
  · intro h0
    refine ⟨by rw [htot]; exact h0, ?_⟩
    rw [heq]
    simp only
    have hlen : ((defaultOrder st.entries).filter
        (fun e => topicNameMatches e.topicName (q.topicName.getD ""))).length = 0 := by
      rw [defaultOrder, length_filter_sortLe, ← List.countP_eq_length_filter]
      exact h0
    rw [List.length_eq_zero] at hlen
    simp [hlen]

/-- Witness for C5: a `topicName` query matching nothing yields 200,
total 0 and an empty page. -/
theorem topicName_filter_in_memory_witness :
    (handleGetEntries storeC1 ⟨none, none, none, some "zzz"⟩).1 = 200 ∧
    (handleGetEntries storeC1 ⟨none, none, none, some "zzz"⟩).2.pagination.total = 0 ∧
    (handleGetEntries storeC1 ⟨none, none, none, some "zzz"⟩).2.entries = [] := by
  have h := topicName_filter_in_memory storeC1 ⟨none, none, none, some "zzz"⟩
    (by decide) (by decide)
  have h0 := h.2.2.2.2 (by decide)
  exact ⟨h.1, h0.1, h0.2⟩

/-! ### C2 — uniqueness is scoped per topic -/

/-- The wallet-duplicate flag computed over the per-topic query, as an
existential over the whole collection. -/
theorem dupWallet_iff (l : List EntryDoc) (tid w : String) :
    ((l.filter (fun e => e.topicId == tid)).any
        (fun e => e.walletAddress == w) = true) ↔
      ∃ e ∈ l, e.topicId = tid ∧ e.walletAddress = w := by
  simp [List.any_eq_true, List.mem_filter, and_assoc]

/-- The email-duplicate flag, as an existential over the collection. -/
theorem dupEmail_iff (l : List EntryDoc) (tid m : String) :
    ((l.filter (fun e => e.topicId == tid)).any
        (fun e => e.email == m) = true) ↔
      ∃ e ∈ l, e.topicId = tid ∧ e.email = m := by
  simp [List.any_eq_true, List.mem_filter, and_assoc]

/-- The (telegram, platform)-pair duplicate flag, as an existential
over the collection: both usernames must match the same document. -/
theorem dupUser_iff (l : List EntryDoc) (tid tg pl : String) :
    ((l.filter (fun e => e.topicId == tid)).any
        (fun e => e.telegramUsername == tg && e.platformUsername == pl) = true) ↔
      ∃ e ∈ l, e.topicId = tid ∧ e.telegramUsername = tg ∧ e.platformUsername = pl := by
  simp [List.any_eq_true, List.mem_filter, and_assoc]

/-- **C2**: with an entry `a` already stored in its topic, a schema-valid
body for the same topic reusing the wallet address of `a` is answered 400
with the wallet-duplicate error and the store is unchanged; a
schema-valid body for a topic that has no entries — in particular one
carrying exactly the field values of `a` under a different topic id — is
answered 201 and appended to the store. -/
theorem uniqueness_scoped_per_topic (lib : LibFns) (now : Nat) (newId : String)
    (st : Store) (a : EntryDoc) (bDup bNew : EntryBody)
    (ha : a ∈ st.entries)
    (hvDup : entrySchemaOk lib bDup = true)
    (htDup : bDup.topicId = a.topicId)
    (hwDup : bDup.walletAddress = a.walletAddress)
    (hvNew : entrySchemaOk lib bNew = true)
    (hfresh : ∀ e ∈ st.entries, e.topicId ≠ bNew.topicId) :
    handlePostEntry lib now newId st bDup =
      (400, .conflict "This wallet address has already been used for this topic", st) ∧
    handlePostEntry lib now newId st bNew =
      (201, .created (mkEntry newId bNew now),
        ⟨st.topics, st.entries ++ [mkEntry newId bNew now]⟩) := by
  constructor
  · have hW : ((st.entries.filter (fun e => e.topicId == bDup.topicId)).any
        (fun e => e.walletAddress == bDup.walletAddress)) = true :=
      (dupWallet_iff _ _ _).mpr ⟨a, ha, htDup.symm, hwDup.symm⟩
    simp [handlePostEntry, hvDup, hW]
  · have hflt : st.entries.filter (fun e => e.topicId == bNew.topicId) = [] :=
      List.filter_eq_nil_iff.mpr (fun e he => by simp [hfresh e he])
    simp [handlePostEntry, hvNew, hflt, mkEntry]

def bodyDupWallet : EntryBody :=
  ⟨"t1", "Alpha", "tg_three", "platthree", walletA, none, "c@x.com"⟩

def bodyFreshTopic : EntryBody :=
  ⟨"t3", "Gamma", "tg_one", "platone", walletA, none, "a@x.com"⟩

/-- Witness for C2: reusing the wallet of `entryA1` in topic `t1` is a 400
wallet-duplicate; submitting the data of `entryA1` under fresh topic `t3`
is a 201. -/
theorem uniqueness_scoped_per_topic_witness :
    (handlePostEntry demoLib 999 "e9" storeC1 bodyDupWallet).1 = 400 ∧
    (handlePostEntry demoLib 999 "e9" storeC1 bodyFreshTopic).1 = 201 := by
  have h := uniqueness_scoped_per_topic demoLib 999 "e9" storeC1 entryA1
    bodyDupWallet bodyFreshTopic (by decide) (by decide) (by decide) (by decide)
    (by decide) (by decide)
  exact ⟨by rw [h.1], by rw [h.2]⟩

/-! ### C3 — fixed precedence wallet → email → (telegram, platform) pair -/

/-- **C3**: for a schema-valid body, the outcome of `POST /entries` is
decided by the first conflict in the fixed order wallet address, then
email, then the (telegram, platform) pair — the single error returned
is the highest-precedence one — and the pair check fires only when
both usernames match the same existing entry of the topic; if no
existing entry of the topic matches the wallet, the email, or both
usernames at once, the entry is created even if telegram or platform
alone collides. -/
theorem duplicate_check_precedence (lib : LibFns) (now : Nat) (newId : String)
    (st : Store) (b : EntryBody) (hv : entrySchemaOk lib b = true) :
    handlePostEntry lib now newId st b =
      if ∃ e ∈ st.entries, e.topicId = b.topicId ∧ e.walletAddress = b.walletAddress then
        (400, .conflict "This wallet address has already been used for this topic", st)
      else if ∃ e ∈ st.entries, e.topicId = b.topicId ∧ e.email = b.email then
        (400, .conflict "This email address has already been used for this topic", st)
      else if ∃ e ∈ st.entries, e.topicId = b.topicId ∧
          e.telegramUsername = b.telegramUsername ∧
          e.platformUsername = b.platformUsername then
        (400, .conflict "You have already submitted an entry for this topic", st)
      else
        (201, .created (mkEntry newId b now),
          ⟨st.topics, st.entries ++ [mkEntry newId b now]⟩) := by
  by_cases cW : ∃ e ∈ st.entries, e.topicId = b.topicId ∧ e.walletAddress = b.walletAddress
  · have bW := (dupWallet_iff st.entries b.topicId b.walletAddress).mpr cW
    simp [handlePostEntry, hv, bW, cW]
  · have bW : ((st.entries.filter (fun e => e.topicId == b.topicId)).any
        (fun e => e.walletAddress == b.walletAddress)) = false := by
      cases hb : ((st.entries.filter (fun e => e.topicId == b.topicId)).any
        (fun e => e.walletAddress == b.walletAddress)) with
      | false => rfl
      | true => exact absurd ((dupWallet_iff _ _ _).mp hb) cW
    by_cases cE : ∃ e ∈ st.entries, e.topicId = b.topicId ∧ e.email = b.email
    · have bE := (dupEmail_iff st.entries b.topicId b.email).mpr cE
      simp [handlePostEntry, hv, bW, bE, cW, cE]
    · have bE : ((st.entries.filter (fun e => e.topicId == b.topicId)).any
          (fun e => e.email == b.email)) = false := by
        cases hb : ((st.entries.filter (fun e => e.topicId == b.topicId)).any
          (fun e => e.email == b.email)) with
        | false => rfl
        | true => exact absurd ((dupEmail_iff _ _ _).mp hb) cE
      by_cases cU : ∃ e ∈ st.entries, e.topicId = b.topicId ∧
          e.telegramUsername = b.telegramUsername ∧
          e.platformUsername = b.platformUsername
      · have bU := (dupUser_iff st.entries b.topicId
          b.telegramUsername b.platformUsername).mpr cU
        simp [handlePostEntry, hv, bW, bE, bU, cW, cE, cU]
      · have bU : ((st.entries.filter (fun e => e.topicId == b.topicId)).any
            (fun e => e.telegramUsername == b.telegramUsername &&
              e.platformUsername == b.platformUsername)) = false := by
          cases hb : ((st.entries.filter (fun e => e.topicId == b.topicId)).any
            (fun e => e.telegramUsername == b.telegramUsername &&
              e.platformUsername == b.platformUsername)) with
          | false => rfl
          | true => exact absurd ((dupUser_iff _ _ _ _).mp hb) cU
        simp [handlePostEntry, hv, bW, bE, bU, cW, cE, cU, mkEntry]

def bodyAllConflicts : EntryBody :=
  ⟨"t1", "Alpha", "tg_one", "platone", walletA, none, "a@x.com"⟩

/-- Witness for C3: a body conflicting with `entryA1` on wallet, email
and both usernames at once draws the wallet-duplicate error. -/
theorem duplicate_check_precedence_witness :
    handlePostEntry demoLib 111 "e11" storeC1 bodyAllConflicts =
      (400, .conflict "This wallet address has already been used for this topic",
        storeC1) := by
  rw [duplicate_check_precedence demoLib 111 "e11" storeC1 bodyAllConflicts (by decide)]
  decide

/-! ### C7 — where the platform-username checker is (and is not) enforced -/

def bodyCheckerFalse : EntryBody :=
  ⟨"t1", "Alpha", "tg_seven", "1abc", walletC, none, "c@x.com"⟩

/-- **C7 counterexample**: `POST /entries` accepts an entry whose
`platformUsername` the checker rejects (`"1abc"` starts with a digit),
so acceptance is not conditioned on the checker; and in the client
submit flow a non-OK checker response surfaces exactly the same
outcome as a `false` verdict, so the two failure modes are conflated. -/
theorem post_created_despite_checker_false :
    validatePlatformUsername "1abc" = false ∧
    (handlePostEntry demoLib 50 "e7" storeEmpty bodyCheckerFalse).1 = 201 ∧
    handleSubmit .httpErr demoLib 50 "e7" storeEmpty bodyCheckerFalse =
      handleSubmit (.ok false) demoLib 50 "e7" storeEmpty bodyCheckerFalse := by
  decide

/-- **C7 amended**: the `POST /entries` handler accepts exactly the
schema-valid bodies without a per-topic duplicate and never consults
the platform-username checker; the checker is enforced only in the
client submit flow, which surfaces the same user-facing
invalid-platform-username error for a non-OK checker response as for a
`false` verdict (posting nothing in either case), while a network-level
checker failure surfaces the distinct generic error. -/
theorem post_accept_iff_schema_and_unique (lib : LibFns) (now : Nat) (newId : String)
    (st : Store) (b : EntryBody) :
    ((handlePostEntry lib now newId st b).1 = 201 ↔
      entrySchemaOk lib b = true ∧
      ¬∃ e ∈ st.entries, e.topicId = b.topicId ∧
        (e.walletAddress = b.walletAddress ∨ e.email = b.email ∨
         (e.telegramUsername = b.telegramUsername ∧
          e.platformUsername = b.platformUsername))) ∧
    (∀ (st2 : Store) (b2 : EntryBody) (now2 : Nat) (id2 : String),
      handleSubmit .httpErr lib now2 id2 st2 b2 =
        .submitError "Invalid platform username. Please check the format and try again." st2 ∧
      handleSubmit (.ok false) lib now2 id2 st2 b2 =
        .submitError "Invalid platform username. Please check the format and try again." st2 ∧
      handleSubmit .netFail lib now2 id2 st2 b2 =
        .submitError "An unexpected error occurred" st2) := by
  constructor
  · by_cases hv : entrySchemaOk lib b = true
    · cases hW : ((st.entries.filter (fun e => e.topicId == b.topicId)).any
          (fun e => e.walletAddress == b.walletAddress)) with
      | true =>
        have hstat : (handlePostEntry lib now newId st b).1 = 400 := by
          simp [handlePostEntry, hv, hW]
        rw [hstat]
        constructor
        · intro h; exact absurd h (by norm_num)
        · rintro ⟨-, hno⟩
          obtain ⟨e, he, h1, h2⟩ := (dupWallet_iff _ _ _).mp hW
          exact (hno ⟨e, he, h1, Or.inl h2⟩).elim
      | false =>
        cases hE : ((st.entries.filter (fun e => e.topicId == b.topicId)).any
            (fun e => e.email == b.email)) with
        | true =>
          have hstat : (handlePostEntry lib now newId st b).1 = 400 := by
            simp [handlePostEntry, hv, hW, hE]
          rw [hstat]
          constructor
          · intro h; exact absurd h (by norm_num)
          · rintro ⟨-, hno⟩
            obtain ⟨e, he, h1, h2⟩ := (dupEmail_iff _ _ _).mp hE
            exact (hno ⟨e, he, h1, Or.inr (Or.inl h2)⟩).elim
        | false =>
          cases hU : ((st.entries.filter (fun e => e.topicId == b.topicId)).any
              (fun e => e.telegramUsername == b.telegramUsername &&
                e.platformUsername == b.platformUsername)) with
          | true =>
            have hstat : (handlePostEntry lib now newId st b).1 = 400 := by
              simp [handlePostEntry, hv, hW, hE, hU]
            rw [hstat]
            constructor
            · intro h; exact absurd h (by norm_num)
            · rintro ⟨-, hno⟩
              obtain ⟨e, he, h1, h2, h3⟩ := (dupUser_iff _ _ _ _).mp hU
              exact (hno ⟨e, he, h1, Or.inr (Or.inr ⟨h2, h3⟩)⟩).elim
          | false =>
            have hstat : (handlePostEntry lib now newId st b).1 = 201 := by
              simp [handlePostEntry, hv, hW, hE, hU]
            rw [hstat]
            constructor
            · intro _
              refine ⟨hv, ?_⟩
              rintro ⟨e, he, h1, (h2 | h2 | ⟨h2, h3⟩)⟩
              · have hb := (dupWallet_iff st.entries b.topicId b.walletAddress).mpr
                  ⟨e, he, h1, h2⟩
                rw [hW] at hb
                exact absurd hb (by simp)
              · have hb := (dupEmail_iff st.entries b.topicId b.email).mpr
                  ⟨e, he, h1, h2⟩
                rw [hE] at hb
                exact absurd hb (by simp)
              · have hb := (dupUser_iff st.entries b.topicId
                  b.telegramUsername b.platformUsername).mpr ⟨e, he, h1, h2, h3⟩
                rw [hU] at hb
                exact absurd hb (by simp)
            · intro _; rfl
    · have hv' : entrySchemaOk lib b = false := by
        cases h : entrySchemaOk lib b with
        | false => rfl
        | true => exact absurd h hv
      have hstat : (handlePostEntry lib now newId st b).1 = 400 := by
        simp [handlePostEntry, hv']
      rw [hstat]
      constructor
      · intro h; exact absurd h (by norm_num)
      · rintro ⟨hvt, -⟩
        exact (hv hvt).elim
  · intro st2 b2 now2 id2
    exact ⟨rfl, rfl, rfl⟩

/-- Witness for the amended C7: a schema-valid body on the empty store
is created even though the checker rejects its platform username. -/
theorem post_accept_iff_schema_and_unique_witness :
    (handlePostEntry demoLib 50 "e8" storeEmpty bodyCheckerFalse).1 = 201 :=
  (post_accept_iff_schema_and_unique demoLib 50 "e8" storeEmpty
    bodyCheckerFalse).1.mpr ⟨by decide, by decide⟩

/-! ### C8 — topic existence is not checked at entry creation -/

def walletD : String := "0xdddddddddddddddddddddddddddddddddddddddd"

def bodyOrphanTopic : EntryBody :=
  ⟨"ghost-topic", "Ghost", "tg_ghost", "ghostname", walletD, none, "d@x.com"⟩

/-- **C8**: the claim fails on the code — `handlePostEntry` never reads
the topics collection, so a schema-valid body whose `topicId` names no
existing topic is accepted with 201 and the orphan entry is written. -/
theorem post_accepts_nonexistent_topic :
    (∀ t ∈ storeC1.topics, t.id ≠ bodyOrphanTopic.topicId) ∧
    (handlePostEntry demoLib 77 "e77" storeC1 bodyOrphanTopic).1 = 201 ∧
    (handlePostEntry demoLib 77 "e77" storeC1 bodyOrphanTopic).2.2.entries =
      storeC1.entries ++ [mkEntry "e77" bodyOrphanTopic 77] := by
  decide

/-! ### C6 — the in-memory path does not order by createdAt -/

def entryOldA : EntryDoc :=
  ⟨"a1", "t1", "Alpha", "tg_olda", "platolda", walletA, none, "olda@x.com", 100⟩

def entryNewB : EntryDoc :=
  ⟨"b2", "t1", "Alpha", "tg_newb", "platnewb", walletB, none, "newb@x.com", 200⟩

def storeC6 : Store := ⟨[topicA], [entryOldA, entryNewB]⟩

def queryC6 : EntriesQuery := ⟨none, none, none, some "alpha"⟩

/-- **C6**: the claim fails on the code — the in-memory `topicName`
path applies no `orderBy` before fetching and never re-sorts the
filtered matches, so it returns them in the store default (document id
ascending) order: here `[entryOldA, entryNewB]`, although a
`createdAt`-descending listing would put `entryNewB` (createdAt 200)
before `entryOldA` (createdAt 100). -/
theorem inMemory_path_ignores_createdAt_order :
    (handleGetEntries storeC6 queryC6).2.entries = [entryOldA, entryNewB] ∧
    entryOldA.createdAt < entryNewB.createdAt ∧
    orderByCreatedAtDesc [entryOldA, entryNewB] = [entryNewB, entryOldA] := by
  decide

end CapX
